import Mathlib

set_option maxRecDepth 100000

/-!
Verification of the icloud-auth / rustpush authentication core.

This file gives a shallow embedding, in Lean 4, of the data model and the
algorithms of the repository's authentication pipeline:

* `src/rustpush/apple-private-apis/icloud-auth/src/client.rs` — the SRP login
  state machine (`login_email_pass`, `verify_2fa`, `verify_sms_2fa`,
  `get_token`, `parse_pet_header`, `decrypt_cbc`, token bookkeeping);
* `src/rustpush/src/macos.rs` — the attestation handshake driver
  (`generate_validation_data`), whose `ValidationCtx` implementation lives in
  the `open-absinthe` crate.

Conventions of the embedding:

* Bytes are `Nat` values below 256; byte strings are `List Nat`.
* `SystemTime` instants are `Nat` milliseconds since `UNIX_EPOCH`;
  `Duration::from_secs d` added to an instant is `d * 1000` milliseconds.
* Rust functions that can panic (`unwrap`, `expect`) are modelled as
  `Option`-returning functions, `none` standing for the panic.
* `HashMap<String, FetchedToken>` is modelled as an association list in which
  a later binding for a key shadows an earlier one (mirroring
  `collect`/`insert` semantics); `tokensGet` therefore searches from the end.
* The network layer is factored away: each embedded function takes the data
  the Rust code extracts from a response (header values after base64/utf8
  decoding, HTTP status, decoded plist dictionaries) as explicit arguments.
-/

/-! ## Machine words and bytes -/

/-- Truncation to a 32-bit word. -/
def w32 (n : Nat) : Nat := n % 4294967296

/-- Right rotation of a 32-bit word. -/
def rotr32 (x n : Nat) : Nat := w32 ((x >>> n) ||| (x <<< (32 - n)))

/-- SHA-256 big sigma-0. -/
def bigSigma0 (x : Nat) : Nat := (rotr32 x 2) ^^^ (rotr32 x 13) ^^^ (rotr32 x 22)

/-- SHA-256 big sigma-1. -/
def bigSigma1 (x : Nat) : Nat := (rotr32 x 6) ^^^ (rotr32 x 11) ^^^ (rotr32 x 25)

/-- SHA-256 small sigma-0. -/
def smallSigma0 (x : Nat) : Nat := (rotr32 x 7) ^^^ (rotr32 x 18) ^^^ (x >>> 3)

/-- SHA-256 small sigma-1. -/
def smallSigma1 (x : Nat) : Nat := (rotr32 x 17) ^^^ (rotr32 x 19) ^^^ (x >>> 10)

/-- SHA-256 choose function; the 32-bit complement is xor with `0xffffffff`. -/
def chF (x y z : Nat) : Nat := (x &&& y) ^^^ ((x ^^^ 4294967295) &&& z)

/-- SHA-256 majority function. -/
def majF (x y z : Nat) : Nat := (x &&& y) ^^^ (x &&& z) ^^^ (y &&& z)

/-- Big-endian 4-byte encoding of a 32-bit word. -/
def toBE4 (x : Nat) : List Nat :=
  [x / 16777216 % 256, x / 65536 % 256, x / 256 % 256, x % 256]

/-- Big-endian reading of a byte chunk as a word. -/
def fromBE4 (l : List Nat) : Nat :=
  l.foldl (fun acc b => acc * 256 + b % 256) 0

/-- Big-endian 8-byte encoding of a 64-bit length. -/
def toBE8 (x : Nat) : List Nat := toBE4 (x / 4294967296) ++ toBE4 x

/-- Fuel-driven worker for `chunkList`; the fuel dominates the list length,
so the `0` case is never taken on the lengths `chunkList` supplies. -/
def chunkFuel (n : Nat) : Nat → List Nat → List (List Nat)
  | 0, _ => []
  | _, [] => []
  | fuel+1, x :: xs => ((x :: xs).take (n+1)) :: chunkFuel n fuel ((x :: xs).drop (n+1))

/-- Split a byte string into chunks of `n+1` bytes (the last chunk may be
shorter). -/
def chunkList (n : Nat) (l : List Nat) : List (List Nat) := chunkFuel n l.length l

theorem chunkFuel_congr (n : Nat) : ∀ (fuel fuel2 : Nat) (l : List Nat),
    l.length ≤ fuel → l.length ≤ fuel2 → chunkFuel n fuel l = chunkFuel n fuel2 l := by
  intro fuel
  induction fuel with
  | zero =>
    intro fuel2 l h1 _
    have : l = [] := List.eq_nil_of_length_eq_zero (Nat.le_zero.mp h1)
    subst this
    cases fuel2 <;> rfl
  | succ fuel ih =>
    intro fuel2 l h1 h2
    cases l with
    | nil => cases fuel2 <;> rfl
    | cons x xs =>
      cases fuel2 with
      | zero => simp at h2
      | succ fuel2 =>
        simp only [chunkFuel]
        congr 1
        have hdl : ((x :: xs).drop (n+1)).length = xs.length - n := by
          simp only [List.length_drop, List.length_cons]
          omega
        have hx1 : xs.length + 1 ≤ fuel + 1 := by simpa using h1
        have hx2 : xs.length + 1 ≤ fuel2 + 1 := by simpa using h2
        apply ih
        · rw [hdl]; omega
        · rw [hdl]; omega

theorem chunkList_nil (n : Nat) : chunkList n [] = [] := rfl

theorem chunkList_cons (n : Nat) (x : Nat) (xs : List Nat) :
    chunkList n (x :: xs) =
      ((x :: xs).take (n+1)) :: chunkList n ((x :: xs).drop (n+1)) := by
  show chunkFuel n (xs.length + 1) (x :: xs) = _
  simp only [chunkFuel]
  congr 1
  apply chunkFuel_congr n
  · simp only [List.length_drop, List.length_cons]; omega
  · simp only [List.length_drop, List.length_cons]; omega

/-! ## SHA-256 (the `sha2` crate behind `Hmac<Sha256>` and `pbkdf2`) -/

/-- SHA-256 working state: eight 32-bit words. -/
structure Hash8 where
  a : Nat
  b : Nat
  c : Nat
  d : Nat
  e : Nat
  f : Nat
  h7 : Nat
  h8 : Nat
deriving DecidableEq

/-- SHA-256 round constants (fractional cube roots of the first 64 primes). -/
def sha256K : List Nat :=
  [1116352408, 1899447441, 3049323471, 3921009573, 961987163, 1508970993,
   2453635748, 2870763221, 3624381080, 310598401, 607225278, 1426881987,
   1925078388, 2162078206, 2614888103, 3248222580, 3835390401, 4022224774,
   264347078, 604807628, 770255983, 1249150122, 1555081692, 1996064986,
   2554220882, 2821834349, 2952996808, 3210313671, 3336571891, 3584528711,
   113926993, 338241895, 666307205, 773529912, 1294757372, 1396182291,
   1695183700, 1986661051, 2177026350, 2456956037, 2730485921, 2820302411,
   3259730800, 3345764771, 3516065817, 3600352804, 4094571909, 275423344,
   430227734, 506948616, 659060556, 883997877, 958139571, 1322822218,
   1537002063, 1747873779, 1955562222, 2024104815, 2227730452, 2361852424,
   2428436474, 2756734187, 3204031479, 3329325298]

/-- SHA-256 initial hash value (fractional square roots of the first 8
primes). -/
def sha256Init : Hash8 :=
  ⟨1779033703, 3144134277, 1013904242, 2773480762,
   1359893119, 2600822924, 528734635, 1541459225⟩

/-- Read a 64-byte block as sixteen big-endian words. -/
def bytesToWords (l : List Nat) : List Nat := (chunkList 3 l).map fromBE4

/-- Extend the message schedule by one word. -/
def scheduleStep (ws : List Nat) : List Nat :=
  let t := ws.length
  ws ++ [w32 (smallSigma1 (ws.getD (t-2) 0) + ws.getD (t-7) 0 +
              smallSigma0 (ws.getD (t-15) 0) + ws.getD (t-16) 0)]

/-- Iterate the schedule extension. -/
def extendSchedule : Nat → List Nat → List Nat
  | 0, ws => ws
  | n+1, ws => extendSchedule n (scheduleStep ws)

/-- The 64-word message schedule of a block. -/
def messageSchedule (block : List Nat) : List Nat :=
  extendSchedule 48 (bytesToWords block)

/-- One SHA-256 round; `kw` is the round constant plus the schedule word. -/
def sha256Round (st : Hash8) (kw : Nat) : Hash8 :=
  let t1 := w32 (st.h8 + bigSigma1 st.e + chF st.e st.f st.h7 + kw)
  let t2 := w32 (bigSigma0 st.a + majF st.a st.b st.c)
  ⟨w32 (t1 + t2), st.a, st.b, st.c, w32 (st.d + t1), st.e, st.f, st.h7⟩

/-- SHA-256 compression of one 64-byte block. -/
def sha256Compress (st : Hash8) (block : List Nat) : Hash8 :=
  let ws := messageSchedule block
  let fin := (List.zip sha256K ws).foldl (fun s kw => sha256Round s (w32 (kw.1 + kw.2))) st
  ⟨w32 (st.a + fin.a), w32 (st.b + fin.b), w32 (st.c + fin.c), w32 (st.d + fin.d),
   w32 (st.e + fin.e), w32 (st.f + fin.f), w32 (st.h7 + fin.h7), w32 (st.h8 + fin.h8)⟩

/-- SHA-256 padding: `0x80`, zeros to 56 mod 64, then the bit length. -/
def sha256Pad (msg : List Nat) : List Nat :=
  let l := msg.length
  let z := (64 + 56 - ((l + 1) % 64)) % 64
  msg ++ [128] ++ List.replicate z 0 ++ toBE8 (l * 8)

/-- Serialize the final state, big-endian. -/
def hash8Bytes (s : Hash8) : List Nat :=
  toBE4 s.a ++ toBE4 s.b ++ toBE4 s.c ++ toBE4 s.d ++
  toBE4 s.e ++ toBE4 s.f ++ toBE4 s.h7 ++ toBE4 s.h8

/-- SHA-256 of a byte string. -/
def sha256 (msg : List Nat) : List Nat :=
  hash8Bytes ((chunkList 63 (sha256Pad msg)).foldl sha256Compress sha256Init)

/-- UTF-8 bytes of an ASCII string (all string constants involved are
ASCII, where UTF-8 is the code points themselves). -/
def asciiBytes (s : String) : List Nat := s.data.map Char.toNat

/-- Lowercase hex digit. -/
def hexDigit (n : Nat) : Char :=
  if n < 10 then Char.ofNat (48 + n) else Char.ofNat (87 + n)

/-- Lowercase hex encoding of a byte string, two digits per byte — the
Rust side's per-byte `format ":02x"` collected into a `String`. -/
def hexEncode (bs : List Nat) : String :=
  String.mk (bs.flatMap (fun b => [hexDigit (b % 256 / 16), hexDigit (b % 16)]))

/-- HMAC-SHA256 (the `hmac` crate's `Hmac<Sha256>`), 64-byte block size. -/
def hmacSha256 (key msg : List Nat) : List Nat :=
  let k0 := if 64 < key.length then sha256 key else key
  let kp := k0 ++ List.replicate (64 - k0.length) 0
  sha256 ((kp.map (fun b => b ^^^ 92)) ++ sha256 ((kp.map (fun b => b ^^^ 54)) ++ msg))

/-- Bytewise xor (zip semantics, as in the block-cipher modes). -/
def xorBytes (a b : List Nat) : List Nat := List.zipWith (fun x y => x ^^^ y) a b

/-! ## PBKDF2-HMAC-SHA256 (the `pbkdf2` crate call in `login_email_pass`) -/

/-- Inner loop of a PBKDF2 block: iterate the PRF, xor-accumulating. -/
def pbkdf2Inner (password : List Nat) : Nat → (List Nat × List Nat) → (List Nat × List Nat)
  | 0, st => st
  | n+1, st =>
    let u := hmacSha256 password st.1
    pbkdf2Inner password n (u, xorBytes st.2 u)

/-- One PBKDF2 output block `F(password, salt, iters, blockIdx)`. -/
def pbkdf2Block (password salt : List Nat) (iters blockIdx : Nat) : List Nat :=
  let u1 := hmacSha256 password (salt ++ toBE4 blockIdx)
  (pbkdf2Inner password (iters - 1) (u1, u1)).2

/-- PBKDF2-HMAC-SHA256 with a requested key length of `dkLen` bytes. -/
def pbkdf2HmacSha256 (password salt : List Nat) (iters dkLen : Nat) : List Nat :=
  let numBlocks := (dkLen + 31) / 32
  (((List.range numBlocks).map (fun i => pbkdf2Block password salt iters (i+1))).flatten).take dkLen

/-! ## Length facts about the hash stack -/

theorem toBE4_length (x : Nat) : (toBE4 x).length = 4 := rfl

theorem sha256_length (msg : List Nat) : (sha256 msg).length = 32 := by
  simp [sha256, hash8Bytes, toBE4]

theorem hmacSha256_length (key msg : List Nat) : (hmacSha256 key msg).length = 32 := by
  unfold hmacSha256
  exact sha256_length _

theorem xorBytes_length (a b : List Nat) :
    (xorBytes a b).length = min a.length b.length := by
  simp [xorBytes]

theorem pbkdf2Inner_length (password : List Nat) (n : Nat) (st : List Nat × List Nat)
    (h : st.2.length = 32) : ((pbkdf2Inner password n st).2).length = 32 := by
  induction n generalizing st with
  | zero => simpa [pbkdf2Inner] using h
  | succ n ih =>
    rw [pbkdf2Inner]
    exact ih _ (by simp [xorBytes_length, h, hmacSha256_length])

theorem pbkdf2Block_length (password salt : List Nat) (iters blockIdx : Nat) :
    (pbkdf2Block password salt iters blockIdx).length = 32 := by
  unfold pbkdf2Block
  exact pbkdf2Inner_length _ _ _ (hmacSha256_length _ _)

theorem pbkdf2HmacSha256_length_32 (password salt : List Nat) (iters : Nat) :
    (pbkdf2HmacSha256 password salt iters 32).length = 32 := by
  simp [pbkdf2HmacSha256, List.range_succ, pbkdf2Block_length]

/-- Known-answer check: SHA-256 of the ASCII string "abc" (FIPS 180 test
vector), pinning the embedding of the hash to the real function. -/
theorem sha256_abc :
    sha256 (asciiBytes "abc") =
      [186, 120, 22, 191, 143, 1, 207, 234, 65, 65, 64, 222, 93, 174, 34, 35,
       176, 3, 97, 163, 150, 23, 122, 156, 180, 16, 255, 97, 242, 0, 21, 173] := by
  decide

/-- Known-answer check: HMAC-SHA256 test case 2 of RFC 4231. -/
theorem hmacSha256_rfc4231 :
    hmacSha256 (asciiBytes "Jefe") (asciiBytes "what do ya want for nothing?") =
      [91, 220, 193, 70, 191, 96, 117, 78, 106, 4, 36, 38, 8, 149, 117, 199,
       90, 0, 63, 8, 157, 39, 57, 131, 157, 236, 88, 185, 100, 236, 56, 67] := by
  decide

/-! ## Plist values (the subset of `plist::Value` the client touches) -/

/-- Subset of `plist::Value` relevant to the embedded code paths. -/
inductive PlValue where
  | str (s : String)
  | integer (n : Int)
  | boolean (b : Bool)
  | data (d : List Nat)
  | array (l : List PlValue)
  | dict (d : List (String × PlValue))

/-- Dictionary lookup, mirroring `plist::Dictionary::get`. -/
def plookup (d : List (String × PlValue)) (k : String) : Option PlValue :=
  (d.find? (fun p => p.1 == k)).map (fun p => p.2)

/-- Mirrors `Value::as_string`. -/
def PlValue.asString : PlValue → Option String
  | .str s => some s
  | _ => none

/-- Mirrors `Value::as_dictionary`. -/
def PlValue.asDict : PlValue → Option (List (String × PlValue))
  | .dict d => some d
  | _ => none

/-- Mirrors `Value::as_unsigned_integer`: defined exactly when the integer
fits in a `u64`. -/
def PlValue.asUnsignedInteger : PlValue → Option Nat
  | .integer n => if 0 ≤ n ∧ n < 18446744073709551616 then some n.toNat else none
  | _ => none

/-! ## Login data model (`client.rs`) -/

/-- Mirrors `VerifyBody` (phone id, mode, optional security code). -/
structure VerifyBody where
  phone_number_id : Nat
  mode : String
  security_code : Option String
deriving DecidableEq

/-- Mirrors the `LoginState` enum of `client.rs`. -/
inductive LoginState where
  | LoggedIn
  | NeedsDevice2FA
  | Needs2FAVerification
  | NeedsSMS2FA
  | NeedsSMS2FAVerification (body : VerifyBody)
  | NeedsExtraStep (s : String)
  | NeedsLogin
deriving DecidableEq

/-- Mirrors the `Error` enum variants exercised by the embedded paths. -/
inductive AuthError where
  | Parse
  | AuthSrp
  | Bad2faCode
  | AuthSrpWithMessage (code : Int) (em : String)
deriving DecidableEq

/-- Mirrors `FetchedToken`; `expiration` is a `SystemTime` in ms since
`UNIX_EPOCH`. -/
structure FetchedToken where
  token : String
  expiration : Nat
deriving DecidableEq

/-- Token store: `HashMap<String, FetchedToken>` as an association list in
which the latest binding wins. -/
abbrev TokenMap : Type := List (String × FetchedToken)

/-- Mirrors `HashMap::get`: the latest binding for a key. -/
def tokensGet (m : TokenMap) (k : String) : Option FetchedToken :=
  (List.find? (fun p => p.1 == k) (List.reverse m)).map (fun p => p.2)

/-- Mirrors `HashMap::is_empty`. -/
def tokensIsEmpty (m : TokenMap) : Bool := List.isEmpty m

/-! ## `login_email_pass`: protocol selection and password derivation
(`client.rs` lines 651-669) -/

/-- Mirrors `res.get("sp").and_then(as_string).unwrap_or("s2k")`. -/
def selected_protocol (res : List (String × PlValue)) : String :=
  ((plookup res "sp").bind PlValue.asString).getD "s2k"

/-- Mirrors the `password_for_srp` branch of `login_email_pass`: for
`s2k_fo` the SHA-256-prehashed password bytes are hex-encoded (then taken
as UTF-8 bytes); otherwise the prehashed bytes are used directly. -/
def password_for_srp (sp : String) (hashed_password : List Nat) : List Nat :=
  if sp = "s2k_fo" then asciiBytes (hexEncode hashed_password)
  else hashed_password

/-- Mirrors the `pbkdf2::pbkdf2::<Hmac<Sha256>>` call filling the 32-byte
`password_buf`. -/
def derive_srp_password (sp : String) (hashed_password salt : List Nat) (iters : Nat) : List Nat :=
  pbkdf2HmacSha256 (password_for_srp sp hashed_password) salt iters 32

/-! ## `login_email_pass`: SPD token extraction (`client.rs` lines 716-728) -/

/-- Mirrors one entry of the `t` sub-dictionary filter-map: token string from
`token`, expiration from `expiry` (absolute epoch-ms) when present, else
`now + duration` seconds. Any missing/mistyped field skips the entry. -/
def parse_spd_token (now : Nat) (v : PlValue) : Option FetchedToken := do
  let d ← v.asDict
  let tokenField ← plookup d "token"
  let tok ← tokenField.asString
  match plookup d "expiry" with
  | some e => do
    let ms ← e.asUnsignedInteger
    pure ⟨tok, ms⟩
  | none => do
    let durField ← plookup d "duration"
    let secs ← durField.asUnsignedInteger
    pure ⟨tok, now + secs * 1000⟩

/-- Mirrors the token bookkeeping of `login_email_pass`: when the decoded
SPD holds a `t` dictionary, `self.tokens` is overwritten with the parsed
entries; otherwise the old token map is left in place. -/
def login_tokens_update (now : Nat) (old : TokenMap) (spd : List (String × PlValue)) : TokenMap :=
  match plookup spd "t" with
  | some (.dict d) =>
    d.filterMap (fun p => (parse_spd_token now p.2).map (fun t => (p.1, t)))
  | _ => old

/-! ## `login_email_pass`: next state from the `Status.au` field
(`client.rs` lines 734-742) -/

/-- Mirrors the final state dispatch of `login_email_pass`: an `au` string
selects the 2FA variant, anything else (including an absent or non-string
`au`) falls through to `LoggedIn`. -/
def next_login_state (status : List (String × PlValue)) : LoginState :=
  match plookup status "au" with
  | some (.str s) =>
    if s = "trustedDeviceSecondaryAuth" then .NeedsDevice2FA
    else if s = "secondaryAuth" then .NeedsSMS2FA
    else .NeedsExtraStep s
  | _ => .LoggedIn

/-! ## 2FA token-header extraction (`client.rs` lines 886-992) -/

/-- Accumulator run of a decimal parser over characters; any non-digit
fails. -/
def parseNatDigits : List Char → Nat → Option Nat
  | [], acc => some acc
  | c :: rest, acc =>
    if 48 ≤ c.toNat ∧ c.toNat ≤ 57 then parseNatDigits rest (acc * 10 + (c.toNat - 48))
    else none

/-- Mirrors Rust `str::parse::<u64>`: optional leading plus sign, a
nonempty run of decimal digits, value bounded by `u64`. -/
def parseU64 (s : String) : Option Nat :=
  let cs := match s.data with
    | '+' :: rest => rest
    | cs2 => cs2
  match cs with
  | [] => none
  | _ :: _ =>
    match parseNatDigits cs 0 with
    | some n => if n < 18446744073709551616 then some n else none
    | none => none

/-- Worker for `splitFields`: split a character list at a separator,
keeping empty pieces, with `acc` the current piece reversed. -/
def splitCharAux (sep : Char) : List Char → List Char → List (List Char)
  | [], acc => [acc.reverse]
  | c :: rest, acc =>
    if c = sep then acc.reverse :: splitCharAux sep rest []
    else splitCharAux sep rest (c :: acc)

/-- Mirrors Rust `str::split` on a one-character separator (the `":"`
splits of the token-header parsing): every occurrence separates, empty
fields included, and the empty string yields one empty field. -/
def splitFields (sep : Char) (s : String) : List String :=
  (splitCharAux sep s.data []).map (fun cs => String.mk cs)

/-- The 40-years-in-milliseconds cutoff of the ttl-ambiguity heuristic
(`40 * 365 * 24 * 60 * 60 * 1000` in `verify_2fa`/`verify_sms_2fa`). -/
def ttl_threshold : Nat := 40 * 365 * 24 * 60 * 60 * 1000

/-- Mirrors the ttl heuristic: a value strictly above the cutoff is an
absolute epoch-ms instant, anything else is a relative duration in
seconds added to `now`. -/
def expiration_from_exp (now exp : Nat) : Nat :=
  if exp > ttl_threshold then exp else now + exp * 1000

/-- Mirrors the `exp` extraction in `verify_2fa`: colon field 2, parsed,
defaulting to 31536000 (one year in seconds) when the field is absent;
`none` models the parse panic. -/
def exp_of_verify_2fa (parts : List String) : Option Nat :=
  match parts.get? 2 with
  | some s => parseU64 s
  | none => some 31536000

/-- Mirrors the `exp` extraction in `verify_sms_2fa`:
`parts.get(3).or(parts.get(2))`, parsed, defaulting to 31536000. -/
def exp_of_verify_sms_2fa (parts : List String) : Option Nat :=
  match (parts.get? 3).orElse (fun _ => parts.get? 2) with
  | some s => parseU64 s
  | none => some 31536000

/-- Mirrors the per-header map body shared by `verify_2fa` and
`verify_sms_2fa` (`decoded` is the base64-decoded utf8 header value):
split on colons, token id at field 0, token at field 1 (panic when
absent), expiration by the ttl heuristic. -/
def parse_gs_hb_header (expOf : List String → Option Nat) (now : Nat)
    (decoded : String) : Option (String × FetchedToken) :=
  let parts := splitFields ':' decoded
  match parts.get? 0, parts.get? 1, expOf parts with
  | some i, some tok, some exp => some (i, ⟨tok, expiration_from_exp now exp⟩)
  | _, _, _ => none

/-- Collect the chained `X-Apple-GS-Token`/`X-Apple-HB-Token` header values
into a fresh token map. -/
def collect_tokens (expOf : List String → Option Nat) (now : Nat)
    (decodedHeaders : List String) : Option TokenMap :=
  decodedHeaders.mapM (parse_gs_hb_header expOf now)

/-- Mirrors the ttl extraction of `parse_pet_header`: colon field 2,
parsed, defaulting to 300 seconds. -/
def pet_ttl (parts : List String) : Option Nat :=
  match parts.get? 2 with
  | some s => parseU64 s
  | none => some 300

/-- Mirrors `parse_pet_header`: the decoded `X-Apple-PE-Token` value is
split on colons; field 1 is the PET stored under `com.apple.gs.idms.pet`
with expiration `now + ttl` seconds. -/
def parse_pet_header (now : Nat) (tokens : TokenMap) (decoded : String) :
    Option TokenMap :=
  let parts := splitFields ':' decoded
  match parts.get? 1, pet_ttl parts with
  | some tok, some ttl =>
    some (tokens ++ [("com.apple.gs.idms.pet", ⟨tok, now + ttl * 1000⟩)])
  | _, _ => none

/-- Shared tail of `verify_2fa`/`verify_sms_2fa` after the token map has
been overwritten: a present `X-Apple-PE-Token` header stores the PET and
yields `LoggedIn`; an absent one yields `NeedsLogin`. -/
def verify_token_update (expOf : List String → Option Nat) (now : Nat)
    (gsHbHeaders : List String) (petHeader : Option String) :
    Option (TokenMap × LoginState) := do
  let fresh ← collect_tokens expOf now gsHbHeaders
  match petHeader with
  | some pe => do
    let withPet ← parse_pet_header now fresh pe
    pure (withPet, LoginState.LoggedIn)
  | none => pure (fresh, LoginState.NeedsLogin)

/-- Mirrors the post-response processing of `verify_2fa` (lines 917-941):
`self.tokens` is overwritten with the parsed GS/HB headers (the previous
map `old` plays no part), then the PE header decides the state. -/
def verify_2fa_update (now : Nat) (old : TokenMap) (gsHbHeaders : List String)
    (petHeader : Option String) : Option (TokenMap × LoginState) :=
  verify_token_update exp_of_verify_2fa now gsHbHeaders petHeader

/-- Mirrors the post-response processing of `verify_sms_2fa` (lines
957-987): a non-200 HTTP status fails with `Bad2faCode` before any token
is touched; otherwise the same pipeline as `verify_2fa` runs with the
ttl field read one position further right. -/
def verify_sms_2fa_update (now : Nat) (old : TokenMap) (status : Nat)
    (gsHbHeaders : List String) (petHeader : Option String) :
    Option (TokenMap × Except AuthError LoginState) :=
  if status ≠ 200 then some (old, .error .Bad2faCode)
  else
    (verify_token_update exp_of_verify_sms_2fa now gsHbHeaders petHeader).map
      (fun r => (r.1, .ok r.2))

/-! ## `get_token` (`client.rs` lines 329-351) -/

/-- The slice of `AppleAccount` state `get_token` touches. -/
structure Session where
  tokens : TokenMap
  username : Option String
  hashed_password : Option (List Nat)
deriving DecidableEq

/-- Outcome of the silent `login_email_pass` retry inside `get_token`:
`ok st after` models `Ok(st)` with the mutated account state, `err after`
models `Err(_)`. -/
inductive ReloginResult where
  | ok (st : LoginState) (after : Session)
  | err (after : Session)

/-- Mirrors `get_token`. Returns the `Option<String>` result, the number
of re-login attempts made (0 or 1), and the final account state. A
missing-but-nonempty map returns early (`self.tokens.get(token)?`);
missing credentials return early; otherwise a single `relogin` runs and
only `Ok(LoggedIn)` proceeds to the final lookup. -/
def get_token (now : Nat) (s : Session) (relogin : Session → ReloginResult)
    (tokenId : String) : Option String × Nat × Session :=
  let hasValidToken : Option Bool :=
    if tokensIsEmpty s.tokens then some false
    else
      match tokensGet s.tokens tokenId with
      | none => none
      | some data => some (decide (now < data.expiration))
  match hasValidToken with
  | none => (none, 0, s)
  | some true => ((tokensGet s.tokens tokenId).map (fun t => t.token), 0, s)
  | some false =>
    match s.username, s.hashed_password with
    | some _, some _ =>
      match relogin s with
      | .ok .LoggedIn s2 => ((tokensGet s2.tokens tokenId).map (fun t => t.token), 1, s2)
      | .ok _ s2 => (none, 1, s2)
      | .err s2 => (none, 1, s2)
    | _, _ => (none, 0, s)

/-! ## SPD decryption (`client.rs` lines 745-763) -/

/-- Mirrors `create_session_key`: HMAC-SHA256 of the name under the SRP
session key (`usr.key()` is passed in as `sessionKey`). -/
def create_session_key (sessionKey : List Nat) (name : String) : List Nat :=
  hmacSha256 sessionKey (asciiBytes name)

/-- PKCS7 padding to 16-byte blocks. -/
def pkcs7_pad (l : List Nat) : List Nat :=
  let p := 16 - l.length % 16
  l ++ List.replicate p p

/-- PKCS7 unpadding; `none` mirrors the `UnpadError` the Rust side
unwraps. -/
def pkcs7_unpad (l : List Nat) : Option (List Nat) :=
  match l.getLast? with
  | none => none
  | some p =>
    if 1 ≤ p ∧ p ≤ 16 ∧ p ≤ l.length ∧ ((l.drop (l.length - p)).all (fun b => b == p)) then
      some (l.take (l.length - p))
    else none

/-- CBC encryption over 16-byte blocks with block cipher `enc`. -/
def cbc_encrypt_blocks (enc : List Nat → List Nat) (iv : List Nat) :
    List (List Nat) → List (List Nat)
  | [] => []
  | p :: ps =>
    let c := enc (xorBytes iv p)
    c :: cbc_encrypt_blocks enc c ps

/-- CBC decryption over 16-byte blocks with block cipher `dec`. -/
def cbc_decrypt_blocks (dec : List Nat → List Nat) (iv : List Nat) :
    List (List Nat) → List (List Nat)
  | [] => []
  | c :: cs => xorBytes iv (dec c) :: cbc_decrypt_blocks dec c cs

/-- Mirrors `decrypt_cbc`: key is `HMAC-SHA256(sessionKey, "extra data
key:")`, IV the first 16 bytes of `HMAC-SHA256(sessionKey, "extra data
iv:")`, then AES-256-CBC with PKCS7 unpadding. The AES-256 block
decryption itself (the `aes` crate) is a parameter `aesDec` taking the
32-byte key and a 16-byte block. -/
def decrypt_cbc (aesDec : List Nat → List Nat → List Nat)
    (sessionKey encrypted : List Nat) : Option (List Nat) :=
  let extra_data_key := create_session_key sessionKey "extra data key:"
  let extra_data_iv := (create_session_key sessionKey "extra data iv:").take 16
  pkcs7_unpad
    ((cbc_decrypt_blocks (aesDec extra_data_key) extra_data_iv (chunkList 15 encrypted)).flatten)

/-- The encryption the server side performs on an SPD payload: PKCS7 pad,
then AES-256-CBC under the same derived key and IV as `decrypt_cbc`. -/
def encrypt_cbc (aesEnc : List Nat → List Nat → List Nat)
    (sessionKey payload : List Nat) : List Nat :=
  let extra_data_key := create_session_key sessionKey "extra data key:"
  let extra_data_iv := (create_session_key sessionKey "extra data iv:").take 16
  (cbc_encrypt_blocks (aesEnc extra_data_key) extra_data_iv (chunkList 15 (pkcs7_pad payload))).flatten

/-! ## Attestation context (`generate_validation_data` in `macos.rs`;
`ValidationCtx` comes from the `open-absinthe` `nac` module, which is not
among the sources — only its callers and tests are — so the context state
machine is modelled from the spec) -/

/-- Modelled from the spec: the phase of a `ValidationCtx`, which "must
progress strictly `init → key_establishment → sign`" and is "single-use;
invalid to reuse after `sign`". -/
inductive AttestationPhase where
  | initialized
  | keyEstablished
  | consumed
deriving DecidableEq

/-- Modelled from the spec: the `AttestationError{code,message}` taxonomy
entry. -/
structure AttestationError where
  code : Int
  message : String
deriving DecidableEq

/-- Modelled from the spec: the opaque attestation context; `material`
stands for the accumulated certificate/session key material. -/
structure ValidationCtx where
  phase : AttestationPhase
  material : List Nat
deriving DecidableEq

/-- Modelled from the spec: `init(serverCertificate, hardwareIdentity) ->
(context, requestBytes)`; the fresh context is in its first phase. -/
def validation_ctx_init (serverCertificate hardwareIdentity : List Nat) :
    ValidationCtx × List Nat :=
  (⟨.initialized, serverCertificate ++ hardwareIdentity⟩,
   serverCertificate ++ hardwareIdentity)

/-- Modelled from the spec: `key_establishment(context, sessionInfo)`
derives session key material inside the context; it is only legal on a
freshly initialized context. -/
def validation_ctx_key_establishment (ctx : ValidationCtx) (sessionInfo : List Nat) :
    Except AttestationError ValidationCtx :=
  if ctx.phase = .initialized then
    .ok ⟨.keyEstablished, ctx.material ++ sessionInfo⟩
  else
    .error ⟨-1, "key establishment out of order"⟩

/-- Modelled from the spec: `sign(context) -> validationData` finalizes,
signs and consumes the context; before `key_establishment`, or on an
already consumed context, it fails with an `AttestationError` and never
produces output. -/
def validation_ctx_sign (ctx : ValidationCtx) :
    Except AttestationError (List Nat × ValidationCtx) :=
  if ctx.phase = .keyEstablished then
    .ok (ctx.material, ⟨.consumed, ctx.material⟩)
  else
    .error ⟨-1, "context not established or already consumed"⟩

/-! ## Lemmas about chunking, padding and CBC -/

theorem flatten_chunkFuel (n : Nat) : ∀ (fuel : Nat) (l : List Nat), l.length ≤ fuel →
    (chunkFuel n fuel l).flatten = l := by
  intro fuel
  induction fuel with
  | zero =>
    intro l h
    have hl : l = [] := List.eq_nil_of_length_eq_zero (Nat.le_zero.mp h)
    subst hl
    rfl
  | succ fuel ih =>
    intro l h
    cases l with
    | nil => rfl
    | cons x xs =>
      simp only [chunkFuel, List.flatten_cons]
      rw [ih _ (by simp only [List.length_drop, List.length_cons] at h ⊢; omega)]
      exact List.take_append_drop _ _

theorem flatten_chunkList (n : Nat) (l : List Nat) : (chunkList n l).flatten = l :=
  flatten_chunkFuel n l.length l le_rfl

theorem chunkList_flatten_of_blocks (n : Nat) :
    ∀ (bs : List (List Nat)), (∀ b ∈ bs, b.length = n+1) → chunkList n bs.flatten = bs := by
  intro bs
  induction bs with
  | nil => intro _; rfl
  | cons b rest ih =>
    intro hbs
    have hb : b.length = n+1 := hbs b (by simp)
    obtain ⟨y, ys, rfl⟩ : ∃ y ys, b = y :: ys := by
      cases b with
      | nil => simp at hb
      | cons y ys => exact ⟨y, ys, rfl⟩
    have hsplit : (y :: ys) ++ rest.flatten = y :: (ys ++ rest.flatten) := rfl
    simp only [List.flatten_cons]
    rw [hsplit, chunkList_cons, ← hsplit, List.take_left' hb, List.drop_left' hb,
      ih (fun c hc => hbs c (by simp [hc]))]

theorem chunk16_mem_length : ∀ (fuel : Nat) (l : List Nat), l.length ≤ fuel →
    l.length % 16 = 0 → ∀ b ∈ chunkFuel 15 fuel l, b.length = 16 := by
  intro fuel
  induction fuel with
  | zero =>
    intro l h1 _ b hb
    have hl : l = [] := List.eq_nil_of_length_eq_zero (Nat.le_zero.mp h1)
    subst hl
    simp [chunkFuel] at hb
  | succ fuel ih =>
    intro l h1 h2 b hb
    cases l with
    | nil => simp [chunkFuel] at hb
    | cons x xs =>
      simp only [chunkFuel, List.mem_cons] at hb
      have hge : 16 ≤ (x :: xs).length := by
        rcases Nat.lt_or_ge (x :: xs).length 16 with hlt | hge
        · have := Nat.mod_eq_of_lt hlt
          simp only [List.length_cons] at this h2 ⊢
          omega
        · exact hge
      cases hb with
      | inl hb =>
        subst hb
        rw [List.length_take]
        simp only [List.length_cons] at hge ⊢
        omega
      | inr hb =>
        apply ih _ _ _ _ hb
        · simp only [List.length_drop, List.length_cons] at h1 ⊢
          omega
        · simp only [List.length_drop, List.length_cons] at h2 hge ⊢
          omega

theorem chunkList16_mem_length (l : List Nat) (h : l.length % 16 = 0) :
    ∀ b ∈ chunkList 15 l, b.length = 16 :=
  chunk16_mem_length l.length l le_rfl h

theorem xorBytes_cancel (a : List Nat) : ∀ (b : List Nat), a.length = b.length →
    xorBytes a (xorBytes a b) = b := by
  induction a with
  | nil =>
    intro b h
    have : b = [] := List.eq_nil_of_length_eq_zero h.symm
    subst this
    rfl
  | cons x xs ih =>
    intro b h
    cases b with
    | nil => simp at h
    | cons y ys =>
      simp only [xorBytes, List.zipWith_cons_cons]
      rw [Nat.xor_cancel_left]
      have := ih ys (by simpa using h)
      simp only [xorBytes] at this
      rw [this]

theorem cbc_encrypt_blocks_length (enc : List Nat → List Nat)
    (hLen : ∀ b, b.length = 16 → (enc b).length = 16) :
    ∀ (ps : List (List Nat)) (iv : List Nat), iv.length = 16 →
      (∀ p ∈ ps, p.length = 16) →
      ∀ c ∈ cbc_encrypt_blocks enc iv ps, c.length = 16 := by
  intro ps
  induction ps with
  | nil => intro iv _ _ c hc; simp [cbc_encrypt_blocks] at hc
  | cons p ps ih =>
    intro iv hiv hps c hc
    have hp : p.length = 16 := hps p (by simp)
    have hx : (xorBytes iv p).length = 16 := by
      rw [xorBytes_length, hiv, hp]; simp
    simp only [cbc_encrypt_blocks, List.mem_cons] at hc
    cases hc with
    | inl hc => subst hc; exact hLen _ hx
    | inr hc => exact ih _ (hLen _ hx) (fun q hq => hps q (by simp [hq])) c hc

theorem cbc_roundtrip_blocks (enc dec : List Nat → List Nat)
    (hInv : ∀ b, b.length = 16 → dec (enc b) = b)
    (hLen : ∀ b, b.length = 16 → (enc b).length = 16) :
    ∀ (ps : List (List Nat)) (iv : List Nat), iv.length = 16 →
      (∀ p ∈ ps, p.length = 16) →
      cbc_decrypt_blocks dec iv (cbc_encrypt_blocks enc iv ps) = ps := by
  intro ps
  induction ps with
  | nil => intro iv _ _; rfl
  | cons p ps ih =>
    intro iv hiv hps
    have hp : p.length = 16 := hps p (by simp)
    have hx : (xorBytes iv p).length = 16 := by
      rw [xorBytes_length, hiv, hp]; simp
    simp only [cbc_encrypt_blocks, cbc_decrypt_blocks]
    rw [hInv _ hx, xorBytes_cancel iv p (by omega)]
    rw [ih _ (hLen _ hx) (fun q hq => hps q (by simp [hq]))]

theorem pkcs7_pad_length_mod (l : List Nat) : (pkcs7_pad l).length % 16 = 0 := by
  simp only [pkcs7_pad, List.length_append, List.length_replicate]
  omega

theorem pkcs7_unpad_pad (l : List Nat) : pkcs7_unpad (pkcs7_pad l) = some l := by
  have hp1 : 1 ≤ 16 - l.length % 16 := by omega
  have hp16 : 16 - l.length % 16 ≤ 16 := by omega
  have hlenpad : (pkcs7_pad l).length = l.length + (16 - l.length % 16) := by
    simp [pkcs7_pad]
  have hrep : List.replicate (16 - l.length % 16) (16 - l.length % 16) ≠ ([] : List Nat) := by
    simp only [ne_eq, List.replicate_eq_nil_iff]
    omega
  have hlast : (pkcs7_pad l).getLast? = some (16 - l.length % 16) := by
    unfold pkcs7_pad
    rw [List.getLast?_append_of_ne_nil _ hrep]
    rcases Nat.exists_eq_add_of_le hp1 with ⟨k, hk⟩
    rw [hk]
    rw [show 1 + k = k + 1 by omega, List.replicate_succ']
    exact List.getLast?_concat _
  have hsub : (pkcs7_pad l).length - (16 - l.length % 16) = l.length := by omega
  have hdrop : (pkcs7_pad l).drop l.length =
      List.replicate (16 - l.length % 16) (16 - l.length % 16) := by
    unfold pkcs7_pad
    exact List.drop_left' rfl
  have htake : (pkcs7_pad l).take l.length = l := by
    unfold pkcs7_pad
    exact List.take_left' rfl
  have hcond : 1 ≤ (16 - l.length % 16) ∧ (16 - l.length % 16) ≤ 16 ∧
      (16 - l.length % 16) ≤ (pkcs7_pad l).length ∧
      (List.replicate (16 - l.length % 16) (16 - l.length % 16)).all
        (fun b => b == (16 - l.length % 16)) := by
    refine ⟨hp1, hp16, by omega, ?_⟩
    simp only [List.all_eq_true, List.mem_replicate]
    intro x hx
    simp [hx.2]
  unfold pkcs7_unpad
  simp only [hlast]
  rw [hsub, hdrop, htake, if_pos hcond]

theorem create_session_key_length (sessionKey : List Nat) (name : String) :
    (create_session_key sessionKey name).length = 32 :=
  hmacSha256_length _ _

/-- Claim C8: for every byte-string payload and every SRP session key,
AES-256-CBC/PKCS7 encryption under key `HMAC-SHA256(sessionKey, "extra
data key:")` and IV the first 16 bytes of `HMAC-SHA256(sessionKey,
"extra data iv:")`, followed by `decrypt_cbc` with the same session key,
returns the original payload byte-for-byte. The AES-256 block maps are
abstract parameters subject only to the cipher laws (decryption inverts
encryption on 16-byte blocks, and encryption preserves the block
length). -/
theorem decrypt_cbc_roundtrip (aesEnc aesDec : List Nat → List Nat → List Nat)
    (hInv : ∀ key b, b.length = 16 → aesDec key (aesEnc key b) = b)
    (hLen : ∀ key b, b.length = 16 → (aesEnc key b).length = 16)
    (sessionKey payload : List Nat) :
    decrypt_cbc aesDec sessionKey (encrypt_cbc aesEnc sessionKey payload) = some payload := by
  simp only [decrypt_cbc, encrypt_cbc]
  have hiv : ((create_session_key sessionKey "extra data iv:").take 16).length = 16 := by
    rw [List.length_take, create_session_key_length]
    simp
  have hplain : ∀ b ∈ chunkList 15 (pkcs7_pad payload), b.length = 16 :=
    chunkList16_mem_length _ (pkcs7_pad_length_mod payload)
  have henc : ∀ c ∈ cbc_encrypt_blocks
      (aesEnc (create_session_key sessionKey "extra data key:"))
      ((create_session_key sessionKey "extra data iv:").take 16)
      (chunkList 15 (pkcs7_pad payload)), c.length = 16 :=
    cbc_encrypt_blocks_length _ (hLen _) _ _ hiv hplain
  rw [chunkList_flatten_of_blocks 15 _ henc,
    cbc_roundtrip_blocks _ _ (hInv _) (hLen _) _ _ hiv hplain,
    flatten_chunkList]
  exact pkcs7_unpad_pad payload

/-- Witness for C8 at the identity block cipher, session key `[1, 2, 3]`
and payload `[10, 20, 30]`. -/
theorem decrypt_cbc_roundtrip_witness :
    decrypt_cbc (fun _ b => b) [1, 2, 3] (encrypt_cbc (fun _ b => b) [1, 2, 3] [10, 20, 30]) =
      some [10, 20, 30] :=
  decrypt_cbc_roundtrip (fun _ b => b) (fun _ b => b)
    (fun _ _ _ => rfl) (fun _ _ h => h) [1, 2, 3] [10, 20, 30]

/-! ## Claim C1: the ttl-ambiguity heuristic -/

/-- Claim C1 (amended): for every token header parsed by `verify_2fa` or
`verify_sms_2fa` with numeric ttl value `t` (defaulting to 31536000 when
the relevant field is absent), a `t` strictly above 40 years in
milliseconds is stored as the absolute instant `UNIX_EPOCH + t` ms, and a
`t` at or below that cutoff — including exactly
`40 * 365 * 24 * 3600 * 1000` — is stored as `now + t` seconds. -/
theorem ttl_heuristic_spec (parts : List String) (now t : Nat)
    (h : exp_of_verify_2fa parts = some t ∨ exp_of_verify_sms_2fa parts = some t) :
    (ttl_threshold < t → expiration_from_exp now t = t) ∧
    (t ≤ ttl_threshold → expiration_from_exp now t = now + t * 1000) ∧
    (parts.get? 2 = none → exp_of_verify_2fa parts = some 31536000) ∧
    expiration_from_exp now ttl_threshold = now + ttl_threshold * 1000 := by
  refine ⟨?_, ?_, ?_, ?_⟩
  · intro ht
    simp [expiration_from_exp, ht]
  · intro ht
    rw [expiration_from_exp, if_neg (by omega)]
  · intro hnone
    rw [exp_of_verify_2fa, hnone]
  · rw [expiration_from_exp, if_neg (by omega)]

/-- Witness for C1 at the header parts `["i", "t", "3600"]` and `now = 5`:
the value 3600 is below the cutoff and parses as 3600 seconds from now. -/
theorem ttl_heuristic_spec_witness :
    expiration_from_exp 5 3600 = 5 + 3600 * 1000 :=
  (ttl_heuristic_spec ["i", "t", "3600"] 5 3600 (Or.inl (by decide))).2.1 (by decide)

/-- Counterexample to C1 as stated: the boundary value
`40 * 365 * 24 * 3600 * 1000` itself is parsed (here out of the decoded
header value fields `["i", "t", "1261440000000"]`) and is classified as
a relative duration in seconds, not as an absolute epoch-ms instant. -/
theorem ttl_heuristic_boundary_cex :
    exp_of_verify_2fa ["i", "t", "1261440000000"] = some (40 * 365 * 24 * 60 * 60 * 1000) ∧
    expiration_from_exp 1700000000000 (40 * 365 * 24 * 60 * 60 * 1000) =
      1700000000000 + (40 * 365 * 24 * 60 * 60 * 1000) * 1000 ∧
    1700000000000 + (40 * 365 * 24 * 60 * 60 * 1000) * 1000 ≠
      40 * 365 * 24 * 60 * 60 * 1000 := by
  refine ⟨by decide, ?_, by decide⟩
  rw [expiration_from_exp, if_neg (by decide)]

/-! ## Claim C2: the PBKDF2 password derivation -/

/-- Claim C2: in `login_email_pass` the password fed to
PBKDF2-HMAC-SHA256 is the hex encoding of the pre-hashed password bytes
when the selected protocol is `s2k_fo` and the pre-hashed bytes
themselves when it is `s2k` (hex applied only in the `s2k_fo` case), and
the derivation with the server salt and iteration count yields a 32-byte
key. -/
theorem login_pbkdf2_spec (sp : String) (hashed_password salt : List Nat) (iters : Nat) :
    (derive_srp_password sp hashed_password salt iters).length = 32 ∧
    password_for_srp "s2k_fo" hashed_password = asciiBytes (hexEncode hashed_password) ∧
    password_for_srp "s2k" hashed_password = hashed_password ∧
    (sp ≠ "s2k_fo" → password_for_srp sp hashed_password = hashed_password) := by
  refine ⟨pbkdf2HmacSha256_length_32 _ _ _, rfl, ?_, ?_⟩
  · rw [password_for_srp, if_neg (by decide)]
  · intro hne
    rw [password_for_srp, if_neg hne]

/-- Witness for C2 at the protocol string "s2k", a one-byte pre-hash, an
empty salt and one iteration. -/
theorem login_pbkdf2_spec_witness :
    password_for_srp "s2k" [171] = [171] :=
  (login_pbkdf2_spec "s2k" [171] [] 1).2.2.2 (by decide)

/-! ## Claim C4: the `Status.au` dispatch -/

/-- Claim C4: the next `LoginState` of `login_email_pass` is decided by
the `au` field of `Status`: absent gives `LoggedIn`,
"trustedDeviceSecondaryAuth" gives `NeedsDevice2FA`, "secondaryAuth"
gives `NeedsSMS2FA`, and any other string `s` gives
`NeedsExtraStep s`. -/
theorem next_login_state_au_mapping (status : List (String × PlValue)) :
    (plookup status "au" = none → next_login_state status = .LoggedIn) ∧
    (plookup status "au" = some (.str "trustedDeviceSecondaryAuth") →
      next_login_state status = .NeedsDevice2FA) ∧
    (plookup status "au" = some (.str "secondaryAuth") →
      next_login_state status = .NeedsSMS2FA) ∧
    (∀ s, plookup status "au" = some (.str s) →
      s ≠ "trustedDeviceSecondaryAuth" → s ≠ "secondaryAuth" →
      next_login_state status = .NeedsExtraStep s) := by
  refine ⟨?_, ?_, ?_, ?_⟩
  · intro h
    rw [next_login_state, h]
  · intro h
    rw [next_login_state, h]
    simp
  · intro h
    rw [next_login_state, h]
    simp
  · intro s h h1 h2
    rw [next_login_state, h]
    simp [h1, h2]

/-- Witness for C4 at the status dictionary `[("au", "secondaryAuth")]`. -/
theorem next_login_state_au_mapping_witness :
    next_login_state [("au", PlValue.str "secondaryAuth")] = LoginState.NeedsSMS2FA :=
  (next_login_state_au_mapping [("au", PlValue.str "secondaryAuth")]).2.2.1 rfl

/-! ## Claim C5: the PE-token path of `verify_2fa` -/

/-- Claim C5: `verify_2fa` (modelled past its successful HTTP exchange)
returns `LoggedIn` exactly when the response carries an
`X-Apple-PE-Token` header; in that case the PET — colon field 1 of the
decoded header value — is stored under `com.apple.gs.idms.pet` with a
ttl from colon field 2, defaulting to 300 seconds when absent; without
the header the result is `NeedsLogin`. -/
theorem verify_2fa_pet_spec (now : Nat) (old fresh : TokenMap) (gsHb : List String)
    (hc : collect_tokens exp_of_verify_2fa now gsHb = some fresh) :
    (verify_2fa_update now old gsHb none = some (fresh, .NeedsLogin)) ∧
    (∀ raw petTok ttl,
      (splitFields ':' raw).get? 1 = some petTok →
      pet_ttl (splitFields ':' raw) = some ttl →
      verify_2fa_update now old gsHb (some raw) =
        some (fresh ++ [("com.apple.gs.idms.pet", ⟨petTok, now + ttl * 1000⟩)], .LoggedIn)) ∧
    (∀ parts, parts.get? 2 = none → pet_ttl parts = some 300) ∧
    (∀ toks st pe, verify_2fa_update now old gsHb pe = some (toks, st) →
      (st = .LoggedIn ↔ pe.isSome = true)) := by
  refine ⟨?_, ?_, ?_, ?_⟩
  · simp [verify_2fa_update, verify_token_update, hc]
  · intro raw petTok ttl h1 h2
    have h1g : (splitFields ':' raw)[1]? = some petTok := by
      rw [← List.get?_eq_getElem?]
      exact h1
    simp [verify_2fa_update, verify_token_update, hc, parse_pet_header, h1, h1g, h2]
  · intro parts hp
    rw [pet_ttl, hp]
  · intro toks st pe hres
    cases pe with
    | none =>
      simp [verify_2fa_update, verify_token_update, hc] at hres
      obtain ⟨h3, h4⟩ := hres
      subst h4
      simp
    | some raw =>
      cases hph : parse_pet_header now fresh raw with
      | none =>
        simp [verify_2fa_update, verify_token_update, hc, hph] at hres
      | some m =>
        simp [verify_2fa_update, verify_token_update, hc, hph] at hres
        obtain ⟨h3, h4⟩ := hres
        subst h4
        simp

/-- Witness for C5 at the spec's example header value
`"12345:abcDEF:300"`, `now = 7`, no GS/HB headers. -/
theorem verify_2fa_pet_spec_witness :
    verify_2fa_update 7 [] [] (some "12345:abcDEF:300") =
      some ([("com.apple.gs.idms.pet", ⟨"abcDEF", 7 + 300 * 1000⟩)], .LoggedIn) :=
  (verify_2fa_pet_spec 7 [] [] [] rfl).2.1 "12345:abcDEF:300" "abcDEF" 300
    (by decide) (by decide)

/-! ## Claim C6: the SMS variant of the token-header extraction -/

/-- Claim C6 (amended): `verify_sms_2fa` applies the same GS/HB
token-header extraction as `verify_2fa` except that the ttl is read from
colon position 3 when that field exists, falling back to position 2
when it does not, with the same default 31536000; and every response
whose HTTP status is not 200 fails with `Bad2faCode` (the spec's
`TwoFactorRejected`) leaving the token map untouched. -/
theorem verify_sms_2fa_spec (now : Nat) (old : TokenMap) (status : Nat)
    (gsHb : List String) (pe : Option String) :
    (∀ parts s3, parts.get? 3 = some s3 → exp_of_verify_sms_2fa parts = parseU64 s3) ∧
    (∀ parts s2, parts.get? 3 = none → parts.get? 2 = some s2 →
      exp_of_verify_sms_2fa parts = parseU64 s2) ∧
    (∀ parts, parts.get? 3 = none → parts.get? 2 = none →
      exp_of_verify_sms_2fa parts = some 31536000) ∧
    (status = 200 →
      verify_sms_2fa_update now old status gsHb pe =
        (verify_token_update exp_of_verify_sms_2fa now gsHb pe).map
          (fun r => (r.1, Except.ok r.2))) ∧
    (status ≠ 200 →
      verify_sms_2fa_update now old status gsHb pe =
        some (old, Except.error AuthError.Bad2faCode)) := by
  refine ⟨?_, ?_, ?_, ?_, ?_⟩
  · intro parts s3 h3
    rw [List.get?_eq_getElem?] at h3
    simp [exp_of_verify_sms_2fa, h3, Option.orElse]
  · intro parts s2 h3 h2
    rw [List.get?_eq_getElem?] at h3 h2
    simp [exp_of_verify_sms_2fa, h3, h2, Option.orElse]
  · intro parts h3 h2
    rw [List.get?_eq_getElem?] at h3 h2
    simp [exp_of_verify_sms_2fa, h3, h2, Option.orElse]
  · intro h
    subst h
    rw [verify_sms_2fa_update, if_neg (by omega)]
  · intro h
    rw [verify_sms_2fa_update, if_pos h]

/-- Counterexample to C6 as stated: on the decoded header value with
fields `["i", "t", "500"]` there is no colon field at position 3, yet
the ttl is not the position-3 default — it is read from position 2
(value 500). -/
theorem verify_sms_ttl_position_cex :
    exp_of_verify_sms_2fa ["i", "t", "500"] = some 500 ∧
    (["i", "t", "500"] : List String).get? 3 = none ∧
    (500 : Nat) ≠ 31536000 := by
  refine ⟨by decide, by decide, by decide⟩

/-- Witness for C6 at HTTP status 403: the call fails with `Bad2faCode`
and the previous token map is returned unchanged. -/
theorem verify_sms_2fa_spec_witness :
    verify_sms_2fa_update 0 [("k", ⟨"t", 1⟩)] 403 [] none =
      some ([("k", ⟨"t", 1⟩)], Except.error AuthError.Bad2faCode) :=
  (verify_sms_2fa_spec 0 [("k", ⟨"t", 1⟩)] 403 [] none).2.2.2.2 (by omega)

/-! ## Claim C7: token-set replacement on successful auth steps -/

/-- Claim C7 (amended): `verify_2fa` and `verify_sms_2fa` (on status
200) replace the session's entire token set — their result does not
depend on the previous map; `login_email_pass` does so exactly when the
decoded SPD carries a `t` dictionary, and otherwise leaves the previous
token set in place. -/
theorem token_replacement_spec (now : Nat) (old old2 : TokenMap)
    (spd : List (String × PlValue)) (status : Nat) (gsHb : List String)
    (pe : Option String) :
    (verify_2fa_update now old gsHb pe = verify_2fa_update now old2 gsHb pe) ∧
    (status = 200 →
      verify_sms_2fa_update now old status gsHb pe =
        verify_sms_2fa_update now old2 status gsHb pe) ∧
    (∀ d, plookup spd "t" = some (PlValue.dict d) →
      login_tokens_update now old spd = login_tokens_update now old2 spd) ∧
    ((∀ d, plookup spd "t" ≠ some (PlValue.dict d)) →
      login_tokens_update now old spd = old) := by
  refine ⟨rfl, ?_, ?_, ?_⟩
  · intro h
    subst h
    rw [verify_sms_2fa_update, verify_sms_2fa_update, if_neg (by omega), if_neg (by omega)]
  · intro d hd
    rw [login_tokens_update, login_tokens_update, hd]
  · intro h
    rw [login_tokens_update]
    cases hv : plookup spd "t" with
    | none => rfl
    | some v =>
      cases v with
      | dict d => exact absurd hv (h d)
      | str s => rfl
      | integer n => rfl
      | boolean b => rfl
      | data d => rfl
      | array l => rfl

/-- Counterexample to C7 as stated: a successfully completing
`login_email_pass` whose decoded SPD has no `t` dictionary keeps every
entry of the previous token set. -/
theorem token_replacement_cex :
    login_tokens_update 0 [("x", ⟨"tk", 5⟩)] [("acname", PlValue.str "alice")] =
      [("x", ⟨"tk", 5⟩)] ∧
    tokensGet [("x", ⟨"tk", 5⟩)] "x" = some ⟨"tk", 5⟩ :=
  ⟨rfl, rfl⟩

/-- Dictionary used by the C7 witness: an SPD with one `t` entry. -/
def spdWitnessC7 : List (String × PlValue) :=
  [("t", PlValue.dict
    [("svc", PlValue.dict [("token", PlValue.str "tk"), ("duration", PlValue.integer 10)])])]

/-- Witness for C7: with a `t` dictionary present, the parsed token map
is the same whatever the previous token set was. -/
theorem token_replacement_spec_witness :
    login_tokens_update 3 [("stale", ⟨"o", 1⟩)] spdWitnessC7 =
      login_tokens_update 3 [] spdWitnessC7 :=
  (token_replacement_spec 3 [("stale", ⟨"o", 1⟩)] [] spdWitnessC7 200 [] none).2.2.1 _ rfl

/-! ## Claims C3 and C10: `get_token` -/

theorem tokensIsEmpty_false_of_get (m : TokenMap) (k : String) (tok : FetchedToken)
    (h : tokensGet m k = some tok) : tokensIsEmpty m = false := by
  cases m with
  | nil => simp [tokensGet] at h
  | cons a l => rfl

/-- Claim C3 (amended): with stored credentials, `get_token` returns the
cached token when the entry exists and is unexpired; when the token map
is empty or the entry has expired it performs exactly one silent
re-login, degrading to `none` (never an error) unless that one retry
ends in `LoggedIn`; and it never performs more than one re-login
attempt. -/
theorem get_token_spec (now : Nat) (s : Session) (relogin : Session → ReloginResult)
    (tokenId : String) (hu : s.username.isSome = true) (hp : s.hashed_password.isSome = true) :
    (∀ tok, tokensGet s.tokens tokenId = some tok → now < tok.expiration →
      get_token now s relogin tokenId = (some tok.token, 0, s)) ∧
    ((tokensIsEmpty s.tokens = true ∨
        (∃ tok, tokensGet s.tokens tokenId = some tok ∧ ¬ now < tok.expiration)) →
      (get_token now s relogin tokenId).2.1 = 1 ∧
      (∀ s2, relogin s = .err s2 → get_token now s relogin tokenId = (none, 1, s2)) ∧
      (∀ st s2, relogin s = .ok st s2 → st ≠ .LoggedIn →
        get_token now s relogin tokenId = (none, 1, s2))) ∧
    (get_token now s relogin tokenId).2.1 ≤ 1 := by
  obtain ⟨u, hu2⟩ := Option.isSome_iff_exists.mp hu
  obtain ⟨pw, hp2⟩ := Option.isSome_iff_exists.mp hp
  refine ⟨?_, ?_, ?_⟩
  · intro tok hget hval
    have hemp : tokensIsEmpty s.tokens = false := tokensIsEmpty_false_of_get _ _ _ hget
    simp [get_token, hemp, hget, hval]
  · intro hinv
    have hred : get_token now s relogin tokenId =
        (match relogin s with
         | .ok .LoggedIn s2 => ((tokensGet s2.tokens tokenId).map (fun t => t.token), 1, s2)
         | .ok .NeedsDevice2FA s2 => (none, 1, s2)
         | .ok .Needs2FAVerification s2 => (none, 1, s2)
         | .ok .NeedsSMS2FA s2 => (none, 1, s2)
         | .ok (.NeedsSMS2FAVerification b) s2 => (none, 1, s2)
         | .ok (.NeedsExtraStep e) s2 => (none, 1, s2)
         | .ok .NeedsLogin s2 => (none, 1, s2)
         | .err s2 => (none, 1, s2)) := by
      rcases hinv with hemp | ⟨tok, hget, hexp⟩
      · simp only [get_token, hemp, if_true]
        rw [hu2, hp2]
        cases hr : relogin s with
        | ok st s2 => cases st <;> rfl
        | err s2 => rfl
      · have hemp : tokensIsEmpty s.tokens = false := tokensIsEmpty_false_of_get _ _ _ hget
        simp only [get_token, hemp, Bool.false_eq_true, if_false, hget]
        rw [decide_eq_false hexp, hu2, hp2]
        cases hr : relogin s with
        | ok st s2 => cases st <;> rfl
        | err s2 => rfl
    refine ⟨?_, ?_, ?_⟩
    · rw [hred]
      cases hr : relogin s with
      | ok st s2 => cases st <;> rfl
      | err s2 => rfl
    · intro s2 hr
      rw [hred, hr]
    · intro st s2 hr hst
      rw [hred, hr]
      cases st with
      | LoggedIn => exact absurd rfl hst
      | NeedsDevice2FA => rfl
      | Needs2FAVerification => rfl
      | NeedsSMS2FA => rfl
      | NeedsSMS2FAVerification b => rfl
      | NeedsExtraStep e => rfl
      | NeedsLogin => rfl
  · by_cases hemp : tokensIsEmpty s.tokens = true
    · rcases h1 : get_token now s relogin tokenId with ⟨r, c, s2⟩
      have : (r, c, s2) = get_token now s relogin tokenId := h1.symm
      rw [get_token] at this
      rw [hemp] at this
      simp only [if_true] at this
      rw [hu2, hp2] at this
      revert this
      cases hr : relogin s with
      | ok st s2b => cases st <;> (intro this; cases this; simp)
      | err s2b => intro this; cases this; simp
    · have hemp2 : tokensIsEmpty s.tokens = false := by
        revert hemp
        cases tokensIsEmpty s.tokens <;> simp
      cases hget : tokensGet s.tokens tokenId with
      | none =>
        simp [get_token, hemp2, hget]
      | some tok =>
        by_cases hval : now < tok.expiration
        · simp [get_token, hemp2, hget, hval]
        · simp only [get_token, hemp2, Bool.false_eq_true, if_false, hget]
          rw [decide_eq_false hval, hu2, hp2]
          cases hr : relogin s with
          | ok st s2 => cases st <;> simp
          | err s2 => simp

/-- Session used by the C3 witness: empty token map, stored
credentials. -/
def sessionWitnessC3 : Session := ⟨[], some "user", some [3]⟩

/-- Witness for C3: on an empty token map the single silent re-login
runs; here it fails, and `get_token` degrades to `none` after exactly
one attempt. -/
theorem get_token_spec_witness :
    get_token 9 sessionWitnessC3 (fun s => .err s) "svc" = (none, 1, sessionWitnessC3) :=
  ((get_token_spec 9 sessionWitnessC3 (fun s => .err s) "svc" rfl rfl).2.1
    (Or.inl rfl)).2.1 sessionWitnessC3 rfl

/-- Session used by the C3 counterexample: a nonempty token map with no
entry for the requested service, and stored credentials. -/
def sessionCexC3 : Session := ⟨[("other", ⟨"tk", 1000⟩)], some "user", some [1, 2]⟩

/-- Re-login oracle used by the C3 counterexample: a re-login would
succeed and produce a token for the requested service. -/
def reloginCexC3 : Session → ReloginResult := fun s =>
  .ok .LoggedIn ⟨[("svc", ⟨"fresh", 1000⟩)], s.username, s.hashed_password⟩

/-- Counterexample to C3 as stated: the cached entry for "svc" does not
exist (so the claim's "otherwise" applies and demands exactly one silent
re-login), yet `get_token` performs zero re-login attempts and returns
`none` — the early return for a nonempty map without the entry. -/
theorem get_token_single_retry_cex :
    tokensGet sessionCexC3.tokens "svc" = none ∧
    tokensIsEmpty sessionCexC3.tokens = false ∧
    sessionCexC3.username.isSome = true ∧
    sessionCexC3.hashed_password.isSome = true ∧
    get_token 0 sessionCexC3 reloginCexC3 "svc" = (none, 0, sessionCexC3) ∧
    (get_token 0 sessionCexC3 reloginCexC3 "svc").2.1 ≠ 1 := by
  refine ⟨rfl, rfl, rfl, rfl, rfl, by decide⟩

/-- Claim C10: when the token map is nonempty but has no entry for the
requested service id, `get_token` returns `none` immediately with no
re-login; a re-login happens only when the map is empty or the entry
for the id exists and has expired. -/
theorem get_token_missing_entry_spec (now : Nat) (s : Session)
    (relogin : Session → ReloginResult) (tokenId : String) :
    (tokensIsEmpty s.tokens = false → tokensGet s.tokens tokenId = none →
      get_token now s relogin tokenId = (none, 0, s)) ∧
    ((get_token now s relogin tokenId).2.1 ≠ 0 →
      tokensIsEmpty s.tokens = true ∨
        (∃ tok, tokensGet s.tokens tokenId = some tok ∧ ¬ now < tok.expiration)) := by
  constructor
  · intro hemp hget
    simp [get_token, hemp, hget]
  · intro hcount
    by_cases hemp : tokensIsEmpty s.tokens = true
    · exact Or.inl hemp
    · have hemp2 : tokensIsEmpty s.tokens = false := by
        revert hemp
        cases tokensIsEmpty s.tokens <;> simp
      cases hget : tokensGet s.tokens tokenId with
      | none =>
        exact absurd (by simp [get_token, hemp2, hget]) hcount
      | some tok =>
        by_cases hval : now < tok.expiration
        · exact absurd (by simp [get_token, hemp2, hget, hval]) hcount
        · exact Or.inr ⟨tok, hget ▸ rfl, hval⟩

/-- Session used by the C10 witness. -/
def sessionWitnessC10 : Session := ⟨[("a", ⟨"t", 50⟩)], none, none⟩

/-- Witness for C10: nonempty map, missing entry, immediate `none` with
zero re-logins. -/
theorem get_token_missing_entry_witness :
    get_token 0 sessionWitnessC10 (fun s => .err s) "b" = (none, 0, sessionWitnessC10) :=
  (get_token_missing_entry_spec 0 sessionWitnessC10 (fun s => .err s) "b").1 rfl rfl

/-! ## Claim C9: the attestation context is strictly ordered and
single-use -/

/-- Claim C9 (spec-modelled): calling `sign` before `key_establishment`
has succeeded — in particular on a freshly initialized context — or on a
context already consumed by a previous `sign`, fails with an
`AttestationError` and never returns validation data. -/
theorem validation_ctx_sign_spec (ctx : ValidationCtx) :
    (ctx.phase ≠ .keyEstablished →
      validation_ctx_sign ctx =
        .error ⟨-1, "context not established or already consumed"⟩) ∧
    (∀ cert hw, (validation_ctx_init cert hw).1.phase = .initialized ∧
      AttestationPhase.initialized ≠ .keyEstablished) ∧
    (∀ d ctx2, validation_ctx_sign ctx = .ok (d, ctx2) →
      ctx2.phase = .consumed ∧
      validation_ctx_sign ctx2 =
        .error ⟨-1, "context not established or already consumed"⟩) := by
  refine ⟨?_, ?_, ?_⟩
  · intro h
    rw [validation_ctx_sign, if_neg h]
  · intro cert hw
    exact ⟨rfl, by decide⟩
  · intro d ctx2 hok
    rw [validation_ctx_sign] at hok
    by_cases h : ctx.phase = .keyEstablished
    · rw [if_pos h] at hok
      simp only [Except.ok.injEq, Prod.mk.injEq] at hok
      have hctx2 : ctx2 = ⟨.consumed, ctx.material⟩ := hok.2.symm
      subst hctx2
      exact ⟨rfl, by rw [validation_ctx_sign, if_neg (by simp)]⟩
    · rw [if_neg h] at hok
      cases hok

/-- Witness for C9: `sign` on a freshly initialized (never established)
context fails with an `AttestationError`. -/
theorem validation_ctx_sign_spec_witness :
    validation_ctx_sign ⟨.initialized, []⟩ =
      .error ⟨-1, "context not established or already consumed"⟩ :=
  (validation_ctx_sign_spec ⟨.initialized, []⟩).1 (by decide)
